import Mathlib

/-!
Verification of the cms-spreadsheet grid component.

The embedding below translates the grid state and its operations from:
* namespace Main : src/src/spreadsheet/index.tsx
* namespace Menu : src/unnamed/part_001, second variant (handleCellChange,
  addRow/addColumn/deleteRow/deleteColumn with onChange calls,
  parsePastedData, mergeDataAtPosition, handlePaste)
* namespace Evt  : src/unnamed/part_001, third variant (deleteRow/deleteColumn
  with label-dependent minimum guards)
* namespace CellE : src/src/spreadsheet/cell.tsx (the cell editor state machine)
-/

/-- The spreadsheet data: a list of rows, each a list of string cell values
(TypeScript type string[][]). -/
abbrev Grid := List (List String)

/-- The cell stored at (r, c), if both indices are in range. -/
def cellAt (g : Grid) (r c : Nat) : Option String :=
  (g.get? r).bind (fun row => row.get? c)

/-- Width of the grid as the component computes it: the length of the first
row (data[0]?.length, defaulting to 0). -/
def gridWidth (g : Grid) : Nat :=
  (g.head?.map List.length).getD 0

/-- Rectangularity: every row has the same length (the width). -/
def rectangular (g : Grid) : Prop :=
  ∀ row ∈ g, row.length = gridWidth g

/-- JS Array.prototype.filter((_, index) => index !== i): removes the element
at (integer) index i, keeping everything else in order.  An index that is
negative or past the end matches no position, so the list is unchanged. -/
def filterIdxNe {α : Type} (l : List α) (i : Int) : List α :=
  match l with
  | [] => []
  | x :: xs => if i = 0 then filterIdxNe xs (i - 1) else x :: filterIdxNe xs (i - 1)

/-- The rows / cols construction parameter: either a count (number) or a
list of fixed labels (string[]). -/
inductive Dim where
  | count (n : Nat)
  | labels (ls : List String)

/-- Array.isArray on the rows / cols parameter. -/
def Dim.isLabels : Dim → Bool
  | .count _ => false
  | .labels _ => true

/-- JS indexing ls[i] ?? "" with a possibly negative integer index. -/
def idxD (ls : List String) (i : Int) : String :=
  if i < 0 then "" else ((ls.get? i.toNat).getD (""))

/-- JS value[rowIndex]?.[colIndex] ?? "". -/
def valAt (value : Grid) (r c : Nat) : String :=
  ((value.get? r).bind (fun row => row.get? c)).getD ("")

namespace Main

/-- Row count computed by generateEmptyData (src/src/spreadsheet/index.tsx
lines 19-21): labels.length (+1 when both axes are labeled), or
max(rows, value.length) for a count. -/
def rowCountOf (value : Grid) (rows cols : Dim) : Nat :=
  match rows with
  | .labels ls => ls.length + (if cols.isLabels then 1 else 0)
  | .count n => max n value.length

/-- Column count computed by generateEmptyData (line 22):
labels.length (+1 when both axes are labeled), or
max(cols, value[0]?.length || 0) for a count. -/
def colCountOf (value : Grid) (rows cols : Dim) : Nat :=
  match cols with
  | .labels ls => ls.length + (if rows.isLabels then 1 else 0)
  | .count n => max n ((value.head?.map List.length).getD 0)

/-- The cell produced at (r, c) by generateEmptyData (lines 24-33): a row
label at column 0 when rows are labeled (shifted by one when both axes are
labeled, so rows[rowIndex - 1] with rows[-1] = undefined giving ""), a
column label at row 0 when cols are labeled (same shift), otherwise
value[rowIndex]?.[colIndex] ?? "". -/
def generateCell (value : Grid) (rows cols : Dim) (r c : Nat) : String :=
  match rows, cols with
  | .labels rls, .labels cls =>
    if c = 0 then idxD rls ((r : Int) - 1)
    else if r = 0 then idxD cls ((c : Int) - 1)
    else valAt value r c
  | .labels rls, .count _ =>
    if c = 0 then idxD rls (r : Int) else valAt value r c
  | .count _, .labels cls =>
    if r = 0 then idxD cls (c : Int) else valAt value r c
  | .count _, .count _ => valAt value r c

/-- generateEmptyData (src/src/spreadsheet/index.tsx lines 13-35). -/
def generateEmptyData (value : Grid) (rows cols : Dim) : Grid :=
  (List.range (rowCountOf value rows cols)).map (fun r =>
    (List.range (colCountOf value rows cols)).map (fun c =>
      generateCell value rows cols r c))

/-- handleCellChange (lines 55-67): copies the grid, copies the targeted row,
assigns the cell, and returns the new grid.  none models the two exits from
the string-grid world: a row index out of range makes the JS spread of
undefined throw a TypeError, and a column index past the length of the row would
create a sparse array with undefined holes. -/
def handleCellChange (data : Grid) (row col : Nat) (value : String) : Option Grid :=
  match data.get? row with
  | none => none
  | some oldRow =>
    if col < oldRow.length then some (data.set row (oldRow.set col value))
    else none

/-- addRow (lines 150-157): resets a degenerate grid to [[""]], else appends
a row of empty strings sized to the length of the first row.  No onChange call
appears in this function. -/
def addRow (prev : Grid) : Grid :=
  if prev.length = 0 ∨ (prev.headD []).length = 0 then [[""]]
  else prev ++ [List.replicate ((prev.headD []).length) ("")]

/-- addRow together with the list of onChange invocations it performs: the
source (lines 150-157) contains no onChange call, so the list is empty. -/
def addRowE (prev : Grid) : Grid × List Grid :=
  (addRow prev, [])

/-- addColumn (lines 159-166): resets an empty grid to [[""]], else appends
one empty cell to every row.  No onChange call appears in this function. -/
def addColumn (prev : Grid) : Grid :=
  if prev.length = 0 then [[""]]
  else prev.map (fun row => row ++ [""])

/-- deleteRow (lines 168-171): refuses when data.length <= 1, else filters
out the row at the given index. -/
def deleteRow (data : Grid) (rowIndex : Int) : Grid :=
  if data.length ≤ 1 then data else filterIdxNe data rowIndex

/-- deleteColumn (lines 173-178): refuses when data[0]?.length <= 1 (an
empty grid makes the guard comparison false in JS, so the map proceeds and
is a no-op), else removes the cell at the index from every row. -/
def deleteColumn (data : Grid) (colIndex : Int) : Grid :=
  match data.head? with
  | some firstRow =>
    if firstRow.length ≤ 1 then data
    else data.map (fun row => filterIdxNe row colIndex)
  | none => data.map (fun row => filterIdxNe row colIndex)

/-- moveSelection (lines 77-91): (0,0) when nothing is selected, otherwise
clamps row + rowDelta into [0, data.length - 1] and col + colDelta into
[0, (data[0]?.length || 1) - 1]. -/
def moveSelection (data : Grid) (prev : Option (Nat × Nat))
    (rowDelta colDelta : Int) : Nat × Nat :=
  match prev with
  | none => (0, 0)
  | some (row, col) =>
    let newRow := max 0 (min ((data.length : Int) - 1) ((row : Int) + rowDelta))
    let colBase := (data.head?.map List.length).getD 0
    let colOr := if colBase = 0 then 1 else colBase
    let newCol := max 0 (min ((colOr : Int) - 1) ((col : Int) + colDelta))
    (newRow.toNat, newCol.toNat)

/-- The component state relevant to navigation: the grid, the selection, the
copy buffer and the activeEditing flag (lines 43-52). -/
structure SheetState where
  data : Grid
  selectedCell : Option (Nat × Nat)
  copyBuffer : Option String
  activeEditing : Bool

/-- moveSelection at component level: only setSelectedCell is invoked
(lines 77-91). -/
def moveSelectionState (s : SheetState) (rowDelta colDelta : Int) : SheetState :=
  { s with selectedCell := some (moveSelection s.data s.selectedCell rowDelta colDelta) }

/-- onSelect for a cell (line 256): setSelectedCell([rowIndex, colIndex]). -/
def selectCellState (s : SheetState) (r c : Nat) : SheetState :=
  { s with selectedCell := some (r, c) }

/-- One mutating operation of the controller. -/
inductive Op where
  | setCell (r c : Nat) (v : String)
  | addRow
  | addColumn
  | delRow (i : Int)
  | delCol (i : Int)

/-- Apply one operation to the grid. -/
def applyOp (g : Grid) : Op → Grid
  | .setCell r c v => (handleCellChange g r c v).getD g
  | .addRow => addRow g
  | .addColumn => addColumn g
  | .delRow i => deleteRow g i
  | .delCol i => deleteColumn g i

/-- Apply a sequence of operations left to right. -/
def applyOps (g : Grid) (ops : List Op) : Grid :=
  ops.foldl applyOp g

/-- The target of an operation is in bounds: demanded only of setCellValue, the
one operation whose JS version indexes the grid directly. -/
def inBoundsOp (g : Grid) : Op → Prop
  | .setCell r c _ => r < g.length ∧ c < (g.getD r []).length
  | _ => True

/-- Every operation of the sequence is in bounds at the moment it runs. -/
def validOps (g : Grid) : List Op → Prop
  | [] => True
  | op :: rest => inBoundsOp g op ∧ validOps (applyOp g op) rest

end Main

namespace Menu

/-- handleCellChange of the second part_001 variant (lines 322-333): maps
over rows and cells to replace the targeted cell, then calls onChange with
the new grid.  The second component lists the onChange invocations, in
order. -/
def handleCellChange (data : Grid) (row col : Nat) (value : String) :
    Grid × List Grid :=
  let newData := data.mapIdx (fun i r =>
    if i = row then r.mapIdx (fun j c => if j = col then value else c) else r)
  (newData, [newData])

/-- JS Array.prototype.splice(i, 0, x): inserts x at index i, clamping i to
the end of the array when it is past the length. -/
def spliceInsert {α : Type} (l : List α) (i : Nat) (x : α) : List α :=
  match l, i with
  | [], _ => [x]
  | y :: ys, 0 => x :: y :: ys
  | y :: ys, n + 1 => y :: spliceInsert ys n x

/-- addRow of the second part_001 variant (lines 448-470): early-returns
[[""]] on a degenerate grid (without calling onChange), otherwise splices a
fresh empty row before or after afterRow (appending when no index is given)
and calls onChange once with the new grid. -/
def addRow (prev : Grid) (afterRow : Option Nat) (before : Bool) :
    Grid × List Grid :=
  if prev.length = 0 ∨ (prev.headD []).length = 0 then ([[""]], [])
  else
    let newRow := List.replicate ((prev.headD []).length) ("")
    let newData :=
      match afterRow with
      | some a => spliceInsert prev (if before then a else a + 1) newRow
      | none => prev ++ [newRow]
    (newData, [newData])

/-- addColumn of the second part_001 variant (lines 472-495): early-returns
[[""]] on an empty grid (without calling onChange), otherwise splices one
empty cell into every row and calls onChange once. -/
def addColumn (prev : Grid) (afterCol : Option Nat) (before : Bool) :
    Grid × List Grid :=
  if prev.length = 0 then ([[""]], [])
  else
    let newData := prev.map (fun row =>
      match afterCol with
      | some a => spliceInsert row (if before then a else a + 1) ("")
      | none => row ++ [""])
    (newData, [newData])

/-- deleteRow of the second part_001 variant (lines 497-506): no guard at
all; filters out the row and calls onChange once. -/
def deleteRow (data : Grid) (rowIndex : Int) : Grid × List Grid :=
  let newData := filterIdxNe data rowIndex
  (newData, [newData])

/-- deleteColumn of the second part_001 variant (lines 508-519): no guard;
removes the cell at the index from every row and calls onChange once. -/
def deleteColumn (data : Grid) (colIndex : Int) : Grid × List Grid :=
  let newData := data.map (fun row => filterIdxNe row colIndex)
  (newData, [newData])

/-- Is a character one of the two quote characters (double quote or \x27)
of the field-cleaning regex of parsePastedData? -/
def isQuoteChar (c : Char) : Bool :=
  c = '"' ∨ c = '\x27'

/-- The regex replace of parsePastedData (anchored: one leading and one
trailing quote character around any content, replaced by the content) on a
field, as a character list: when the field has at least two characters and
both the first and the last are quote characters, both are removed;
otherwise the field is kept. -/
def stripOuterQuotesList : List Char → List Char
  | [] => []
  | [c] => [c]
  | c :: rest =>
    if isQuoteChar c ∧ isQuoteChar (rest.getLastD c) then rest.dropLast
    else c :: rest

/-- JS String.prototype.trim() on a character list: leading and trailing
whitespace removed. -/
def trimCharList (cs : List Char) : List Char :=
  ((cs.dropWhile Char.isWhitespace).reverse.dropWhile Char.isWhitespace).reverse

/-- JS String.prototype.trim(). -/
def trimStr (s : String) : String :=
  String.mk (trimCharList s.toList)

/-- Field cleaning of parsePastedData (line 536): the anchored quote-pair
replace followed by .trim() — quote stripping happens BEFORE trimming. -/
def cleanCell (s : String) : String :=
  trimStr (String.mk (stripOuterQuotesList s.toList))

/-- Splitting on the regex /\r\n|\n|\r/ : CRLF counts as one separator; the
accumulator holds the current line, reversed. -/
def splitLinesAux : List Char → List Char → List (List Char)
  | [], acc => [acc.reverse]
  | '\r' :: '\n' :: rest, acc => acc.reverse :: splitLinesAux rest []
  | '\r' :: rest, acc => acc.reverse :: splitLinesAux rest []
  | '\n' :: rest, acc => acc.reverse :: splitLinesAux rest []
  | c :: rest, acc => splitLinesAux rest (c :: acc)

/-- pastedString.split(/\r\n|\n|\r/). -/
def splitLines (s : String) : List String :=
  (splitLinesAux s.toList []).map (fun cs => String.mk cs)

/-- parsePastedData (lines 521-539): split into lines (dropping the ones
that trim to empty), pick tab as delimiter when the first line contains a
tab and comma otherwise, split each line on the delimiter and clean each
field. -/
def splitOnCharAux (sep : Char) : List Char → List Char → List (List Char)
  | [], acc => [acc.reverse]
  | c :: rest, acc =>
    if c = sep then acc.reverse :: splitOnCharAux sep rest []
    else splitOnCharAux sep rest (c :: acc)

/-- JS line.split(delimiter) for a one-character delimiter. -/
def splitOnChar (sep : Char) (s : String) : List String :=
  (splitOnCharAux sep s.toList []).map (fun cs => String.mk cs)

def parsePastedData (pastedString : String) : List (List String) :=
  let lines := (splitLines pastedString).filter (fun line => trimStr line ≠ "")
  let delimiter := if ((lines.headD ("")).toList.contains '\t') then '\t' else ','
  lines.map (fun line => (splitOnChar delimiter line).map cleanCell)

/-- The inner loop of mergeDataAtPosition (lines 553-565): writes the pasted
cells of one source row into the grid row starting at column c0, skipping a
target column past the length of the row and skipping header positions
(column 0 when rows are labeled; any column when this is grid row 0 and
cols are labeled). -/
def mergeCellsAux (row : List String) (cells : List String) (c0 : Nat)
    (rowsL row0 colsL : Bool) : List String :=
  match cells with
  | [] => row
  | v :: rest =>
    let row' :=
      if row.length ≤ c0 then row
      else if (rowsL = true ∧ c0 = 0) ∨ (colsL = true ∧ row0 = true) then row
      else row.set c0 v
    mergeCellsAux row' rest (c0 + 1) rowsL row0 colsL

/-- The outer loop of mergeDataAtPosition (lines 549-566): writes each
pasted row into the grid starting at row r0, skipping a target row past
the length of the grid. -/
def mergeRowsAux (g : Grid) (p : Grid) (r0 sc : Nat) (rowsL colsL : Bool) : Grid :=
  match p with
  | [] => g
  | prow :: rest =>
    let g' :=
      if r0 < g.length then
        g.set r0 (mergeCellsAux (g.getD r0 []) prow sc rowsL (r0 == 0) colsL)
      else g
    mergeRowsAux g' rest (r0 + 1) sc rowsL colsL

/-- mergeDataAtPosition (lines 541-569).  The JS row-copying
(currentData.map(row => [...row])) is the identity on immutable lists.
rowsL / colsL are Array.isArray(rows) / Array.isArray(cols) from the
enclosing component. -/
def mergeDataAtPosition (currentData pastedData : Grid)
    (startRow startCol : Nat) (rowsL colsL : Bool) : Grid :=
  mergeRowsAux currentData pastedData startRow startCol rowsL colsL

/-- The block branch of handlePaste (lines 378-384): parse the clipboard
text, merge at the selection, setData and call onChange once with the
merged grid. -/
def pasteBlock (data : Grid) (pastedText : String) (startRow startCol : Nat)
    (rowsL colsL : Bool) : Grid × List Grid :=
  let newData := mergeDataAtPosition data (parsePastedData pastedText) startRow startCol rowsL colsL
  (newData, [newData])

end Menu

namespace Evt

/-- deleteRow of the third part_001 variant (lines 894-899): the minimum
row count is 2 when cols are labeled (one row is the header) and 1
otherwise; refuses at or below the minimum, else filters the row out. -/
def deleteRow (data : Grid) (colsL : Bool) (rowIndex : Int) : Grid :=
  let minRows := if colsL then 2 else 1
  if data.length ≤ minRows then data else filterIdxNe data rowIndex

/-- deleteColumn of the third part_001 variant (lines 901-906): the minimum
column count is 2 when rows are labeled and 1 otherwise, measured on
data[0]?.length || 0; refuses at or below the minimum, else removes the
cell at the index from every row. -/
def deleteColumn (data : Grid) (rowsL : Bool) (colIndex : Int) : Grid :=
  let minCols := if rowsL then 2 else 1
  if (data.head?.map List.length).getD 0 ≤ minCols then data
  else data.map (fun row => filterIdxNe row colIndex)

end Evt

namespace CellE

/-- The state owned by the cell editor (src/src/spreadsheet/cell.tsx lines 23-29):
the editing flag, the draft buffer, and the timestamp of the last Enter
press used for the double-Enter debounce. -/
structure CellState where
  isEditing : Bool
  editValue : String
  lastEnterPress : Nat
  deriving DecidableEq

/-- A keyboard event, reduced to the fields the handler reads. -/
structure KeyEvt where
  key : String
  shiftKey : Bool
  ctrlKey : Bool
  metaKey : Bool
  altKey : Bool
  deriving DecidableEq

/-- handleKeyDown (cell.tsx lines 82-128).  value is the committed value
prop, now the current time in ms (Date.now()).  Returns the new state and
the argument of the onChange call, if one is made.  Header cells return
immediately.  While editing: Enter without Shift and Tab leave edit mode
and commit the draft; Escape leaves edit mode and resets the draft to the
committed value; other keys only stop propagation.  While not editing:
Enter (without ctrl/meta/alt) enters edit mode on a second press within
500ms and otherwise records the press time; a single-character key on an
empty cell enters edit mode seeding the draft with that character. -/
def handleKeyDown (isHeader : Bool) (value : String) (now : Nat)
    (st : CellState) (e : KeyEvt) : CellState × Option String :=
  if isHeader then (st, none)
  else if st.isEditing then
    if e.key = "Enter" ∧ e.shiftKey = false then
      ({ st with isEditing := false }, some st.editValue)
    else if e.key = "Escape" then
      ({ st with isEditing := false, editValue := value }, none)
    else if e.key = "Tab" then
      ({ st with isEditing := false }, some st.editValue)
    else (st, none)
  else
    let st1 :=
      if e.key = "Enter" ∧ e.ctrlKey = false ∧ e.metaKey = false ∧ e.altKey = false then
        if now - st.lastEnterPress < 500 then
          { st with isEditing := true, lastEnterPress := 0 }
        else { st with lastEnterPress := now }
      else st
    let st2 :=
      if e.key.length = 1 ∧ value = "" then
        { st1 with isEditing := true, editValue := e.key }
      else st1
    (st2, none)

/-- handleBlur (cell.tsx lines 75-80): when editing, leave edit mode and
commit the draft through onChange. -/
def handleBlur (st : CellState) : CellState × Option String :=
  if st.isEditing then ({ st with isEditing := false }, some st.editValue)
  else (st, none)

end CellE

section Helpers

theorem filterIdxNe_oob {α : Type} (l : List α) (i : Int)
    (h : i < 0 ∨ (l.length : Int) ≤ i) : filterIdxNe l i = l := by
  induction l generalizing i with
  | nil => rfl
  | cons x xs ih =>
    have hne : ¬ i = 0 := by
      simp only [List.length_cons] at h
      omega
    simp only [filterIdxNe, if_neg hne]
    rw [ih (i - 1) (by simp only [List.length_cons] at h ⊢; omega)]

theorem length_filterIdxNe {α : Type} (l : List α) (i : Int) :
    (filterIdxNe l i).length =
      if 0 ≤ i ∧ i < (l.length : Int) then l.length - 1 else l.length := by
  induction l generalizing i with
  | nil =>
    simp only [filterIdxNe, List.length_nil]
    split <;> rfl
  | cons x xs ih =>
    by_cases h0 : i = 0
    · subst h0
      simp only [filterIdxNe, if_pos rfl]
      rw [filterIdxNe_oob xs (0 - 1) (by omega)]
      rw [if_pos (by simp)]
      simp [List.length_cons]
    · simp only [filterIdxNe, if_neg h0, List.length_cons]
      rw [ih (i - 1)]
      push_cast
      split_ifs <;> omega

theorem mem_filterIdxNe {α : Type} {x : α} {l : List α} {i : Int}
    (h : x ∈ filterIdxNe l i) : x ∈ l := by
  induction l generalizing i with
  | nil => simpa [filterIdxNe] using h
  | cons y ys ih =>
    simp only [filterIdxNe] at h
    by_cases h0 : i = 0
    · rw [if_pos h0] at h
      exact List.mem_cons_of_mem y (ih h)
    · rw [if_neg h0] at h
      rcases List.mem_cons.mp h with h1 | h2
      · exact h1 ▸ List.mem_cons_self y ys
      · exact List.mem_cons_of_mem y (ih h2)

theorem rectangular_of_forall {g : Grid} {w : Nat}
    (h : ∀ row ∈ g, row.length = w) : rectangular g := by
  intro row hr
  cases g with
  | nil => cases hr
  | cons r rs =>
    have hw : gridWidth (r :: rs) = w := by
      simp only [gridWidth, List.head?_cons, Option.map_some', Option.getD_some]
      exact h r (List.mem_cons_self r rs)
    rw [hw]
    exact h row hr

theorem get?_eq_some_getD {α : Type} (l : List α) (d : α) {n : Nat}
    (h : n < l.length) : l.get? n = some (l.getD n d) := by
  rw [List.get?_eq_get h, List.getD_eq_get? , List.get?_eq_get h]
  rfl

theorem getD_mem_of_lt {α : Type} (l : List α) (d : α) {n : Nat}
    (h : n < l.length) : l.getD n d ∈ l :=
  List.get?_mem (get?_eq_some_getD l d h)

end Helpers

/-- C9: navigation is pure with respect to the data: moveSelection and
selectCell change only the selection; the cell-value store, the copy buffer
and the activeEditing flag are untouched. -/
theorem c9_navigation_frame :
    ∀ (s : Main.SheetState) (rowDelta colDelta : Int) (r c : Nat),
      (Main.moveSelectionState s rowDelta colDelta).data = s.data
      ∧ (Main.moveSelectionState s rowDelta colDelta).copyBuffer = s.copyBuffer
      ∧ (Main.moveSelectionState s rowDelta colDelta).activeEditing = s.activeEditing
      ∧ (Main.selectCellState s r c).data = s.data
      ∧ (Main.selectCellState s r c).copyBuffer = s.copyBuffer
      ∧ (Main.selectCellState s r c).activeEditing = s.activeEditing :=
  fun _ _ _ _ _ => ⟨rfl, rfl, rfl, rfl, rfl, rfl⟩

/-- C3: moveSelection with no current selection yields (0,0); from any
position with any integer deltas it lands in [0, rowCount-1] x [0, colCount-1]
whenever both dimensions are positive. -/
theorem c3_moveSelection_clamps :
    (∀ (data : Grid) (rowDelta colDelta : Int),
       Main.moveSelection data none rowDelta colDelta = (0, 0))
    ∧ (∀ (data : Grid) (r c : Nat) (rowDelta colDelta : Int),
       0 < data.length → 0 < gridWidth data →
       (Main.moveSelection data (some (r, c)) rowDelta colDelta).1 < data.length
       ∧ (Main.moveSelection data (some (r, c)) rowDelta colDelta).2 < gridWidth data) := by
  constructor
  · intro data rowDelta colDelta
    rfl
  · intro data r c rowDelta colDelta h1 h2
    simp only [gridWidth] at h2
    have heq : Main.moveSelection data (some (r, c)) rowDelta colDelta =
        ((max 0 (min ((data.length : Int) - 1) ((r : Int) + rowDelta))).toNat,
         (max 0 (min ((((if (data.head?.map List.length).getD 0 = 0 then 1
             else (data.head?.map List.length).getD 0 : Nat)) : Int) - 1)
           ((c : Int) + colDelta))).toNat) := rfl
    rw [heq]
    rw [if_neg (by omega)]
    simp only [gridWidth]
    constructor <;> omega

/-- C3 witness: a concrete clamped move. -/
theorem c3_witness :
    (Main.moveSelection [["x", "y"], ["z", "w"]] (some (0, 1)) 3 (-9)).1
        < ([["x", "y"], ["z", "w"]] : Grid).length
    ∧ (Main.moveSelection [["x", "y"], ["z", "w"]] (some (0, 1)) 3 (-9)).2
        < gridWidth [["x", "y"], ["z", "w"]] :=
  c3_moveSelection_clamps.2 [["x", "y"], ["z", "w"]] 0 1 3 (-9)
    (by decide) (by decide)

theorem map_filterIdxNe_self {α : Type} (l : List (List α)) (i : Int) (w : Nat)
    (hw : ∀ row ∈ l, row.length = w) (h : i < 0 ∨ (w : Int) ≤ i) :
    l.map (fun row => filterIdxNe row i) = l := by
  have : ∀ row ∈ l, filterIdxNe row i = id row := by
    intro row hr
    have := hw row hr
    exact filterIdxNe_oob row i (by omega)
  rw [List.map_congr_left this, List.map_id]

/-- C10: an out-of-range deleteRow / deleteColumn neither throws nor changes
anything: with more than the minimum one row (resp. a rectangular grid with
more than the minimum one column), an index that is negative or at least the
count leaves the grid exactly as it was. -/
theorem c10_oob_delete_noop :
    (∀ (data : Grid) (i : Int), 1 < data.length →
       (i < 0 ∨ (data.length : Int) ≤ i) → Main.deleteRow data i = data)
    ∧ (∀ (data : Grid) (i : Int), rectangular data → 1 < gridWidth data →
       (i < 0 ∨ (gridWidth data : Int) ≤ i) → Main.deleteColumn data i = data) := by
  constructor
  · intro data i h1 h2
    simp only [Main.deleteRow]
    rw [if_neg (by omega)]
    exact filterIdxNe_oob data i h2
  · intro data i hrect h1 h2
    cases hd : data.head? with
    | none =>
      have : data = [] := List.head?_eq_none_iff.mp hd
      subst this
      rfl
    | some firstRow =>
      have hfw : firstRow.length = gridWidth data := by
        simp only [gridWidth, hd, Option.map_some', Option.getD_some]
      simp only [Main.deleteColumn, hd]
      rw [if_neg (by omega)]
      exact map_filterIdxNe_self data i (gridWidth data)
        (fun row hr => hrect row hr) h2

/-- C10 witness: a concrete out-of-range row delete and column delete. -/
theorem c10_witness :
    Main.deleteRow [["a"], ["b"]] 5 = [["a"], ["b"]]
    ∧ Main.deleteColumn [["a", "b"]] (-1) = [["a", "b"]] :=
  ⟨c10_oob_delete_noop.1 [["a"], ["b"]] 5 (by decide) (by decide),
   c10_oob_delete_noop.2 [["a", "b"]] (-1) (by unfold rectangular; decide)
     (by decide) (by decide)⟩

/-- C6 counterexample: with column labels configured the claim demands that
deleteRow refuse once only two rows remain (header plus one editable row),
but the index.tsx deleteRow only refuses at one row: on the two-row grid
built from cols = ["h1","h2"] it deletes row 1, leaving just the header. -/
theorem c6_counterexample :
    Main.deleteRow (Main.generateEmptyData [] (.count 2) (.labels ["h1", "h2"])) 1
      = [["h1", "h2"]]
    ∧ (Main.generateEmptyData [] (.count 2) (.labels ["h1", "h2"])).length = 2 := by
  constructor
  · rfl
  · rfl

/-- C6 amended: the label-dependent minimum (1 without a header on the axis,
2 with one) is enforced by deleteRow / deleteColumn of the third part_001
variant, which otherwise remove the indexed row / column; the
index.tsx deleteRow / deleteColumn instead refuse only at a count of 1,
regardless of labels. -/
theorem c6_min_structure :
    (∀ (data : Grid) (colsL : Bool) (i : Int),
       data.length ≤ (if colsL then 2 else 1) → Evt.deleteRow data colsL i = data)
    ∧ (∀ (data : Grid) (colsL : Bool) (i : Int),
       (if colsL then 2 else 1) < data.length → 0 ≤ i → i < (data.length : Int) →
       (Evt.deleteRow data colsL i).length = data.length - 1)
    ∧ (∀ (data : Grid) (rowsL : Bool) (i : Int),
       gridWidth data ≤ (if rowsL then 2 else 1) → Evt.deleteColumn data rowsL i = data)
    ∧ (∀ (data : Grid) (rowsL : Bool) (i : Int),
       rectangular data → (if rowsL then 2 else 1) < gridWidth data →
       0 ≤ i → i < (gridWidth data : Int) →
       ∀ row ∈ Evt.deleteColumn data rowsL i, row.length = gridWidth data - 1)
    ∧ (∀ (data : Grid) (i : Int), data.length ≤ 1 → Main.deleteRow data i = data)
    ∧ (∀ (data : Grid) (i : Int), 1 < data.length → 0 ≤ i → i < (data.length : Int) →
       (Main.deleteRow data i).length = data.length - 1) := by
  refine ⟨?_, ?_, ?_, ?_, ?_, ?_⟩
  · intro data colsL i h
    simp only [Evt.deleteRow]
    rw [if_pos h]
  · intro data colsL i h h0 hlt
    simp only [Evt.deleteRow]
    rw [if_neg (by omega), length_filterIdxNe, if_pos (by omega)]
  · intro data rowsL i h
    simp only [Evt.deleteColumn, gridWidth] at h ⊢
    rw [if_pos h]
  · intro data rowsL i hrect h h0 hlt row hrow
    simp only [Evt.deleteColumn] at hrow
    rw [show ((data.head?.map List.length).getD 0) = gridWidth data from rfl] at hrow
    rw [if_neg (by omega)] at hrow
    rcases List.mem_map.mp hrow with ⟨row0, hr0, heq⟩
    subst heq
    rw [length_filterIdxNe, hrect row0 hr0, if_pos (by omega)]
  · intro data i h
    simp only [Main.deleteRow]
    rw [if_pos h]
  · intro data i h h0 hlt
    simp only [Main.deleteRow]
    rw [if_neg (by omega), length_filterIdxNe, if_pos (by omega)]

/-- C6 witness: the third variant refuses to delete the last editable row of
a labeled grid, and deletes an in-range row of a large enough grid. -/
theorem c6_witness :
    Evt.deleteRow [["h"], ["x"]] true 1 = [["h"], ["x"]]
    ∧ (Evt.deleteRow [["h"], ["x"], ["y"]] true 1).length = 2 :=
  ⟨c6_min_structure.1 [["h"], ["x"]] true 1 (by decide),
   c6_min_structure.2.1 [["h"], ["x"], ["y"]] true 1 (by decide) (by decide) (by decide)⟩

/-- C2 counterexample: handleCellChange performs no header check.  On the
grid built from row labels ["a","b"], position (0,0) is a reserved header
cell holding its label "a", yet handleCellChange overwrites it with "X"
(reachable in the UI through the Ctrl/Cmd+V copy-shortcut path after
moveSelection lands on the header cell). -/
theorem c2_counterexample :
    (Main.handleCellChange
        (Main.generateEmptyData [] (.labels ["a", "b"]) (.count 3)) 0 0 ("X")).map
        (fun g => cellAt g 0 0)
      = some (some ("X"))
    ∧ cellAt (Main.generateEmptyData [] (.labels ["a", "b"]) (.count 3)) 0 0
      = some ("a") := by
  exact ⟨rfl, rfl⟩

/-- C4 counterexample: the index.tsx addRow is a mutating operation (it
appends a row to [["a"]]) yet performs zero onChange invocations, not
exactly one. -/
theorem c4_counterexample :
    (Main.addRowE [["a"]]).2.length = 0
    ∧ (Main.addRowE [["a"]]).1 = [["a"], [""]] := by
  exact ⟨rfl, rfl⟩

/-- C4 amended: in the part_001 variant with onChange calls, setCellValue,
deleteRow, deleteColumn and the block-paste merge each invoke onChange
exactly once with the new full-grid snapshot, and addRow / addColumn do so
whenever they do not take the degenerate-grid early return; the index.tsx
structural operations never invoke onChange (only its setCellValue does). -/
theorem c4_onchange_once :
    (∀ (g : Grid) (r c : Nat) (v : String),
       (Menu.handleCellChange g r c v).2 = [(Menu.handleCellChange g r c v).1])
    ∧ (∀ (g : Grid) (a : Option Nat) (b : Bool),
       ¬(g.length = 0 ∨ (g.headD []).length = 0) →
       (Menu.addRow g a b).2 = [(Menu.addRow g a b).1])
    ∧ (∀ (g : Grid) (a : Option Nat) (b : Bool), ¬ g.length = 0 →
       (Menu.addColumn g a b).2 = [(Menu.addColumn g a b).1])
    ∧ (∀ (g : Grid) (i : Int),
       (Menu.deleteRow g i).2 = [(Menu.deleteRow g i).1])
    ∧ (∀ (g : Grid) (i : Int),
       (Menu.deleteColumn g i).2 = [(Menu.deleteColumn g i).1])
    ∧ (∀ (g : Grid) (t : String) (sr sc : Nat) (rowsL colsL : Bool),
       (Menu.pasteBlock g t sr sc rowsL colsL).2
         = [(Menu.pasteBlock g t sr sc rowsL colsL).1])
    ∧ (∀ (g : Grid), (Main.addRowE g).2 = []) := by
  refine ⟨fun g r c v => rfl, ?_, ?_, fun g i => rfl, fun g i => rfl,
    fun g t sr sc rowsL colsL => rfl, fun g => rfl⟩
  · intro g a b h
    simp only [Menu.addRow, if_neg h]
  · intro g a b h
    simp only [Menu.addColumn, if_neg h]

/-- C4 witness: concrete once-per-operation onChange calls for an insert
with a non-degenerate grid. -/
theorem c4_witness :
    (Menu.addRow [["a"]] (some 0) false).2 = [(Menu.addRow [["a"]] (some 0) false).1]
    ∧ (Menu.addColumn [["a"]] none false).2 = [(Menu.addColumn [["a"]] none false).1] :=
  ⟨c4_onchange_once.2.1 [["a"]] (some 0) false (by decide),
   c4_onchange_once.2.2.1 [["a"]] none false (by decide)⟩

theorem rect_generateEmptyData (v : Grid) (rows cols : Dim) :
    rectangular (Main.generateEmptyData v rows cols) := by
  apply rectangular_of_forall (w := Main.colCountOf v rows cols)
  intro row hrow
  rcases List.mem_map.mp hrow with ⟨r, _, heq⟩
  subst heq
  simp [List.length_map, List.length_range]

theorem rect_applyOp (g : Grid) (op : Main.Op) (hg : rectangular g)
    (hb : Main.inBoundsOp g op) : rectangular (Main.applyOp g op) := by
  cases op with
  | setCell r c v =>
    obtain ⟨hr, hc⟩ := hb
    have hrow : g.get? r = some (g.getD r []) := get?_eq_some_getD g [] hr
    have hcc : Main.handleCellChange g r c v
        = some (g.set r ((g.getD r []).set c v)) := by
      simp only [Main.handleCellChange, hrow]
      rw [if_pos hc]
    simp only [Main.applyOp, hcc, Option.getD_some]
    apply rectangular_of_forall (w := gridWidth g)
    intro row hrow2
    rcases List.mem_or_eq_of_mem_set hrow2 with h | h
    · exact hg row h
    · subst h
      rw [List.length_set]
      exact hg (g.getD r []) (getD_mem_of_lt g [] hr)
  | addRow =>
    simp only [Main.applyOp, Main.addRow]
    by_cases hdeg : g.length = 0 ∨ (g.headD []).length = 0
    · rw [if_pos hdeg]
      intro row hrow
      simp only [List.mem_singleton] at hrow
      subst hrow
      rfl
    · rw [if_neg hdeg]
      push_neg at hdeg
      obtain ⟨hne, _⟩ := hdeg
      have hhead : (g.headD []).length = gridWidth g := by
        cases g with
        | nil => simp at hne
        | cons r rs => rfl
      apply rectangular_of_forall (w := gridWidth g)
      intro row hrow
      rcases List.mem_append.mp hrow with h | h
      · exact hg row h
      · simp only [List.mem_singleton] at h
        subst h
        rw [List.length_replicate, hhead]
  | addColumn =>
    simp only [Main.applyOp, Main.addColumn]
    by_cases hemp : g.length = 0
    · rw [if_pos hemp]
      intro row hrow
      simp only [List.mem_singleton] at hrow
      subst hrow
      rfl
    · rw [if_neg hemp]
      apply rectangular_of_forall (w := gridWidth g + 1)
      intro row hrow
      rcases List.mem_map.mp hrow with ⟨row0, hr0, heq⟩
      subst heq
      rw [List.length_append, hg row0 hr0]
      rfl
  | delRow i =>
    simp only [Main.applyOp, Main.deleteRow]
    by_cases hguard : g.length ≤ 1
    · rw [if_pos hguard]
      exact hg
    · rw [if_neg hguard]
      apply rectangular_of_forall (w := gridWidth g)
      intro row hrow
      exact hg row (mem_filterIdxNe hrow)
  | delCol i =>
    simp only [Main.applyOp, Main.deleteColumn]
    cases hd : g.head? with
    | none =>
      have : g = [] := List.head?_eq_none_iff.mp hd
      subst this
      intro row hrow
      cases hrow
    | some firstRow =>
      show rectangular (if firstRow.length ≤ 1 then g
        else List.map (fun row => filterIdxNe row i) g)
      by_cases hguard : firstRow.length ≤ 1
      · rw [if_pos hguard]
        exact hg
      · rw [if_neg hguard]
        apply rectangular_of_forall
          (w := if 0 ≤ i ∧ i < (gridWidth g : Int) then gridWidth g - 1 else gridWidth g)
        intro row hrow
        rcases List.mem_map.mp hrow with ⟨row0, hr0, heq⟩
        subst heq
        rw [length_filterIdxNe, hg row0 hr0]

theorem rect_applyOps (ops : List Main.Op) :
    ∀ (g : Grid), rectangular g → Main.validOps g ops →
      rectangular (Main.applyOps g ops) := by
  induction ops with
  | nil => intro g hg _; exact hg
  | cons op rest ih =>
    intro g hg hv
    obtain ⟨hb, hrest⟩ := hv
    exact ih (Main.applyOp g op) (rect_applyOp g op hg hb) hrest

/-- C1: every grid produced by construction stays rectangular under every
sequence of setCellValue / addRow / addColumn / deleteRow / deleteColumn
operations whose setCellValue targets are in bounds when they run: after
each operation (every such sequence being a prefix of a longer one), all
rows have the same length. -/
theorem c1_rectangularity (v : Grid) (rows cols : Dim) (ops : List Main.Op)
    (hv : Main.validOps (Main.generateEmptyData v rows cols) ops) :
    rectangular (Main.applyOps (Main.generateEmptyData v rows cols) ops) :=
  rect_applyOps ops (Main.generateEmptyData v rows cols)
    (rect_generateEmptyData v rows cols) hv

/-- C1 witness: a concrete valid operation sequence on a 2x2 grid. -/
theorem c1_witness :
    rectangular (Main.applyOps (Main.generateEmptyData [] (.count 2) (.count 2))
      [Main.Op.setCell 0 1 ("x"), Main.Op.addRow, Main.Op.delCol 0]) :=
  c1_rectangularity [] (.count 2) (.count 2)
    [Main.Op.setCell 0 1 ("x"), Main.Op.addRow, Main.Op.delCol 0]
    (by exact ⟨⟨by decide, by decide⟩, trivial, trivial, trivial⟩)

theorem mergeCellsAux_length (cells : List String) :
    ∀ (row : List String) (c0 : Nat) (rowsL row0 colsL : Bool),
      (Menu.mergeCellsAux row cells c0 rowsL row0 colsL).length = row.length := by
  induction cells with
  | nil => intro row c0 _ _ _; rfl
  | cons v rest ih =>
    intro row c0 rowsL row0 colsL
    simp only [Menu.mergeCellsAux]
    rw [ih]
    split_ifs <;> simp [List.length_set]

theorem mergeCellsAux_get (cells : List String) :
    ∀ (row : List String) (c0 k : Nat) (rowsL row0 colsL : Bool),
      (Menu.mergeCellsAux row cells c0 rowsL row0 colsL).get? k =
        if c0 ≤ k ∧ k - c0 < cells.length ∧ k < row.length
           ∧ ¬((rowsL = true ∧ k = 0) ∨ (colsL = true ∧ row0 = true))
        then cells.get? (k - c0)
        else row.get? k := by
  induction cells with
  | nil =>
    intro row c0 k rowsL row0 colsL
    rw [if_neg (by rintro ⟨-, h2, -⟩; simp at h2)]
    rfl
  | cons v rest ih =>
    intro row c0 k rowsL row0 colsL
    show (Menu.mergeCellsAux (if row.length ≤ c0 then row
        else if (rowsL = true ∧ c0 = 0) ∨ (colsL = true ∧ row0 = true) then row
        else row.set c0 v) rest (c0 + 1) rowsL row0 colsL).get? k = _
    set R := (if row.length ≤ c0 then row
        else if (rowsL = true ∧ c0 = 0) ∨ (colsL = true ∧ row0 = true) then row
        else row.set c0 v) with hR
    have hlen : R.length = row.length := by
      rw [hR]
      split_ifs <;> simp [List.length_set]
    have hother : ∀ kk, kk ≠ c0 → R.get? kk = row.get? kk := by
      intro kk hkk
      rw [hR]
      split_ifs with h1 h2
      · rfl
      · rfl
      · exact List.get?_set_ne v row (Ne.symm hkk)
    rw [ih, hlen]
    rcases Nat.lt_trichotomy k c0 with hlt | heq | hgt
    · rw [if_neg (by rintro ⟨h1, -, -, -⟩; omega)]
      rw [if_neg (by rintro ⟨h1, -, -, -⟩; omega)]
      exact hother k (by omega)
    · subst heq
      rw [if_neg (by rintro ⟨h1, -, -, -⟩; omega)]
      by_cases hin : k < row.length
      · by_cases hh : (rowsL = true ∧ k = 0) ∨ (colsL = true ∧ row0 = true)
        · rw [if_neg (by rintro ⟨-, -, -, hn⟩; exact hn hh)]
          rw [hR, if_neg (by omega), if_pos hh]
        · rw [if_pos ⟨Nat.le_refl k, by simp [List.length_cons], hin, hh⟩]
          rw [hR, if_neg (by omega), if_neg hh, Nat.sub_self]
          exact List.get?_set_eq_of_lt v hin
      · rw [if_neg (by rintro ⟨-, -, hk, -⟩; exact hin hk)]
        rw [hR, if_pos (by omega)]
    · by_cases hP : c0 + 1 ≤ k ∧ k - (c0 + 1) < rest.length ∧ k < row.length
          ∧ ¬((rowsL = true ∧ k = 0) ∨ (colsL = true ∧ row0 = true))
      · rw [if_pos hP]
        rw [if_pos ⟨by omega, by simp only [List.length_cons]; omega,
          hP.2.2.1, hP.2.2.2⟩]
        obtain ⟨m, hm⟩ : ∃ m, k - c0 = m + 1 := ⟨k - (c0 + 1), by omega⟩
        rw [hm, List.get?_cons_succ]
        congr 1
        omega
      · rw [if_neg hP]
        rw [if_neg (by
          rintro ⟨h1, h2, h3, h4⟩
          simp only [List.length_cons] at h2
          exact hP ⟨by omega, by omega, h3, h4⟩)]
        exact hother k (by omega)

theorem mergeRowsAux_length (p : Grid) :
    ∀ (g : Grid) (r0 sc : Nat) (rowsL colsL : Bool),
      (Menu.mergeRowsAux g p r0 sc rowsL colsL).length = g.length := by
  induction p with
  | nil => intro g r0 sc _ _; rfl
  | cons prow rest ih =>
    intro g r0 sc rowsL colsL
    show (Menu.mergeRowsAux (if r0 < g.length then
        g.set r0 (Menu.mergeCellsAux (g.getD r0 []) prow sc rowsL (r0 == 0) colsL)
      else g) rest (r0 + 1) sc rowsL colsL).length = g.length
    rw [ih]
    split_ifs <;> simp [List.length_set]

theorem mergeRowsAux_get (p : Grid) :
    ∀ (g : Grid) (r0 sc : Nat) (rowsL colsL : Bool) (k : Nat),
      (Menu.mergeRowsAux g p r0 sc rowsL colsL).get? k =
        if r0 ≤ k ∧ k - r0 < p.length ∧ k < g.length
        then some (Menu.mergeCellsAux (g.getD k []) (p.getD (k - r0) []) sc rowsL
          (k == 0) colsL)
        else g.get? k := by
  induction p with
  | nil =>
    intro g r0 sc rowsL colsL k
    rw [if_neg (by rintro ⟨-, h2, -⟩; simp at h2)]
    rfl
  | cons prow rest ih =>
    intro g r0 sc rowsL colsL k
    show (Menu.mergeRowsAux (if r0 < g.length then
        g.set r0 (Menu.mergeCellsAux (g.getD r0 []) prow sc rowsL (r0 == 0) colsL)
      else g) rest (r0 + 1) sc rowsL colsL).get? k = _
    set G := (if r0 < g.length then
        g.set r0 (Menu.mergeCellsAux (g.getD r0 []) prow sc rowsL (r0 == 0) colsL)
      else g) with hG
    have hlen : G.length = g.length := by
      rw [hG]
      split_ifs <;> simp [List.length_set]
    have hother : ∀ kk, kk ≠ r0 → G.get? kk = g.get? kk := by
      intro kk hkk
      rw [hG]
      split_ifs with h1
      · exact List.get?_set_ne _ g (Ne.symm hkk)
      · rfl
    have hotherD : ∀ kk, kk ≠ r0 → G.getD kk [] = g.getD kk [] := by
      intro kk hkk
      rw [List.getD_eq_get? , List.getD_eq_get? , hother kk hkk]
    rw [ih, hlen]
    rcases Nat.lt_trichotomy k r0 with hlt | heq | hgt
    · rw [if_neg (by rintro ⟨h1, -, -⟩; omega)]
      rw [if_neg (by rintro ⟨h1, -, -⟩; omega)]
      exact hother k (by omega)
    · subst heq
      rw [if_neg (by rintro ⟨h1, -, -⟩; omega)]
      by_cases hin : k < g.length
      · rw [if_pos ⟨Nat.le_refl k, by simp [List.length_cons], hin⟩]
        rw [hG, if_pos hin, Nat.sub_self]
        exact List.get?_set_eq_of_lt _ hin
      · rw [if_neg (by rintro ⟨-, -, hk⟩; exact hin hk)]
        rw [hG, if_neg hin]
    · by_cases hP : r0 + 1 ≤ k ∧ k - (r0 + 1) < rest.length ∧ k < g.length
      · rw [if_pos hP]
        rw [if_pos ⟨by omega, by simp only [List.length_cons]; omega, hP.2.2⟩]
        rw [hotherD k (by omega)]
        obtain ⟨m, hm⟩ : ∃ m, k - r0 = m + 1 := ⟨k - (r0 + 1), by omega⟩
        have hm2 : k - (r0 + 1) = m := by omega
        rw [hm, List.getD_cons_succ, hm2]
      · rw [if_neg hP]
        rw [if_neg (by
          rintro ⟨h1, h2, h3⟩
          simp only [List.length_cons] at h2
          exact hP ⟨by omega, by omega, h3⟩)]
        exact hother k (by omega)

theorem merge_cellAt (g p : Grid) (sr sc : Nat) (rowsL colsL : Bool) (r c : Nat) :
    cellAt (Menu.mergeDataAtPosition g p sr sc rowsL colsL) r c =
      if sr ≤ r ∧ r - sr < p.length ∧ r < g.length
         ∧ sc ≤ c ∧ c - sc < (p.getD (r - sr) []).length ∧ c < (g.getD r []).length
         ∧ ¬((rowsL = true ∧ c = 0) ∨ (colsL = true ∧ r = 0))
      then (p.getD (r - sr) []).get? (c - sc)
      else cellAt g r c := by
  simp only [cellAt, Menu.mergeDataAtPosition]
  rw [mergeRowsAux_get]
  by_cases hrow : sr ≤ r ∧ r - sr < p.length ∧ r < g.length
  · rw [if_pos hrow]
    rw [Option.some_bind]
    rw [mergeCellsAux_get]
    have hbeq : ((r == 0) = true) = (r = 0) := by
      simp [Nat.beq_eq_true_eq]
    by_cases hcell : sc ≤ c ∧ c - sc < (p.getD (r - sr) []).length
        ∧ c < (g.getD r []).length
        ∧ ¬((rowsL = true ∧ c = 0) ∨ (colsL = true ∧ (r == 0) = true))
    · rw [if_pos hcell]
      rw [if_pos ⟨hrow.1, hrow.2.1, hrow.2.2, hcell.1, hcell.2.1, hcell.2.2.1, by
        intro h
        apply hcell.2.2.2
        rcases h with h | h
        · exact Or.inl h
        · exact Or.inr ⟨h.1, by rw [hbeq]; exact h.2⟩⟩]
    · rw [if_neg hcell]
      rw [if_neg (by
        rintro ⟨-, -, -, h4, h5, h6, h7⟩
        apply hcell
        refine ⟨h4, h5, h6, ?_⟩
        intro h
        apply h7
        rcases h with h | h
        · exact Or.inl h
        · exact Or.inr ⟨h.1, by rw [hbeq] at h; exact h.2⟩)]
      rw [get?_eq_some_getD g [] hrow.2.2]
      rfl
  · rw [if_neg hrow]
    rw [if_neg (by rintro ⟨h1, h2, h3, -⟩; exact hrow ⟨h1, h2, h3⟩)]

/-- C2 amended: the paste-merge (mergeDataAtPosition) never alters a
reserved header position — column 0 when rows are labeled, row 0 when cols
are labeled — so merged grids keep their labels there; setCellValue
(handleCellChange), however, has no header guard and overwrites a header
position when invoked on one (see the counterexample), though the UI-level
cell editing paths are disabled for header cells. -/
theorem c2_merge_header_protected :
    ∀ (g p : Grid) (sr sc : Nat) (rowsL colsL : Bool) (r c : Nat),
      ((rowsL = true ∧ c = 0) ∨ (colsL = true ∧ r = 0)) →
      cellAt (Menu.mergeDataAtPosition g p sr sc rowsL colsL) r c = cellAt g r c := by
  intro g p sr sc rowsL colsL r c hh
  rw [merge_cellAt]
  rw [if_neg (by rintro ⟨-, -, -, -, -, -, hn⟩; exact hn hh)]

/-- C2 witness: a concrete merge over a row-labeled grid leaves the header
cell (1,0) untouched. -/
theorem c2_witness :
    cellAt (Menu.mergeDataAtPosition [["a", ""], ["b", ""]] [["p", "q"], ["r", "s"]]
      0 0 true false) 1 0 = cellAt [["a", ""], ["b", ""]] 1 0 :=
  c2_merge_header_protected [["a", ""], ["b", ""]] [["p", "q"], ["r", "s"]]
    0 0 true false 1 0 (Or.inl ⟨rfl, rfl⟩)

/-- The field cleaning as the claim words it: the field is trimmed of its
surrounding whitespace and the result is stripped of one layer of
surrounding single/double quotes. -/
def specFieldClean (s : String) : String :=
  String.mk (Menu.stripOuterQuotesList (Menu.trimCharList s.toList))

/-- C5 counterexample: the code strips quotes BEFORE trimming, so the field
quote-a-quote-space of the comma-separated payload comes out still wearing
its surrounding quotes, where the trim-and-strip description of the claim
yields the bare "a". -/
theorem c5_counterexample :
    Menu.parsePastedData ("\x27a\x27 ,b") = [["\x27a\x27", "b"]]
    ∧ Menu.cleanCell ("\x27a\x27 ") = "\x27a\x27"
    ∧ specFieldClean ("\x27a\x27 ") = "a"
    ∧ ("\x27a\x27" : String) ≠ "a" := by
  refine ⟨by decide, by decide, by decide, by decide⟩

/-- C5 amended: pasted block data is split into lines on CRLF/LF/CR with
lines that trim to empty dropped, the delimiter is tab when the first line
contains one and comma otherwise, and each raw field first has one layer of
surrounding quotes stripped (when its first and last characters are quote
characters) and is then trimmed — strip before trim, not after; the merge
writes parsed field (i,j) to each in-bounds non-header cell
(startRow+i, startCol+j) and leaves every other cell unchanged, as the
pointwise characterization states, and the concrete 5x5 round-trip holds. -/
theorem c5_paste_parse_merge :
    (∀ (g p : Grid) (sr sc : Nat) (rowsL colsL : Bool) (r c : Nat),
      cellAt (Menu.mergeDataAtPosition g p sr sc rowsL colsL) r c =
        if sr ≤ r ∧ r - sr < p.length ∧ r < g.length
           ∧ sc ≤ c ∧ c - sc < (p.getD (r - sr) []).length ∧ c < (g.getD r []).length
           ∧ ¬((rowsL = true ∧ c = 0) ∨ (colsL = true ∧ r = 0))
        then (p.getD (r - sr) []).get? (c - sc)
        else cellAt g r c)
    ∧ Menu.parsePastedData ("a\tb\nc\td") = [["a", "b"], ["c", "d"]]
    ∧ Menu.mergeDataAtPosition (Main.generateEmptyData [] (.count 5) (.count 5))
        (Menu.parsePastedData ("a\tb\nc\td")) 1 1 false false
      = [["", "", "", "", ""],
         ["", "a", "b", "", ""],
         ["", "c", "d", "", ""],
         ["", "", "", "", ""],
         ["", "", "", "", ""]] :=
  ⟨merge_cellAt, rfl, rfl⟩

theorem gen_cellAt (v : Grid) (rows cols : Dim) (r c : Nat) :
    cellAt (Main.generateEmptyData v rows cols) r c =
      if r < Main.rowCountOf v rows cols ∧ c < Main.colCountOf v rows cols
      then some (Main.generateCell v rows cols r c)
      else none := by
  simp only [cellAt, Main.generateEmptyData]
  by_cases hr : r < Main.rowCountOf v rows cols
  · rw [List.get?_map, List.get?_range hr]
    simp only [Option.map_some', Option.some_bind]
    by_cases hc : c < Main.colCountOf v rows cols
    · rw [List.get?_map, List.get?_range hc, if_pos ⟨hr, hc⟩]
      rfl
    · rw [if_neg (fun h => hc h.2), List.get?_map]
      rw [List.get?_eq_none.mpr (by rw [List.length_range]; omega)]
      rfl
  · rw [if_neg (fun h => hr h.1), List.get?_map]
    rw [List.get?_eq_none.mpr (by rw [List.length_range]; omega)]
    rfl

theorem idxD_nat (ls : List String) (n : Nat) (h : n < ls.length) :
    idxD ls (n : Int) = ls.get ⟨n, h⟩ := by
  simp only [idxD]
  rw [if_neg (by omega)]
  simp only [Int.toNat_natCast]
  rw [List.get?_eq_get h]
  rfl

/-- C7: the row (resp. column) count of the constructed grid is
max(count, value length along that axis) when given as a count — the value
length along the column axis being the width of a rectangular supplied
value — and labels.length plus one extra when both axes are labeled when
given as a label list; header positions carry their label text and
non-header positions absent from the supplied value are empty strings. -/
theorem c7_construction_sizing :
    (∀ (v : Grid) (rows cols : Dim),
       (Main.generateEmptyData v rows cols).length = Main.rowCountOf v rows cols)
    ∧ (∀ (v : Grid) (rows cols : Dim) (row : List String),
       row ∈ Main.generateEmptyData v rows cols →
       row.length = Main.colCountOf v rows cols)
    ∧ (∀ (v : Grid) (n : Nat) (cols : Dim),
       Main.rowCountOf v (.count n) cols = max n v.length)
    ∧ (∀ (v : Grid) (rows : Dim) (n : Nat), rectangular v →
       Main.colCountOf v rows (.count n) = max n (gridWidth v))
    ∧ (∀ (v : Grid) (ls : List String) (cols : Dim),
       Main.rowCountOf v (.labels ls) cols
         = ls.length + (if cols.isLabels = true then 1 else 0))
    ∧ (∀ (v : Grid) (rows : Dim) (ls : List String),
       Main.colCountOf v rows (.labels ls)
         = ls.length + (if rows.isLabels = true then 1 else 0))
    ∧ (∀ (v : Grid) (ls : List String) (n : Nat) (r : Nat) (hr : r < ls.length),
       0 < Main.colCountOf v (.labels ls) (.count n) →
       cellAt (Main.generateEmptyData v (.labels ls) (.count n)) r 0
         = some (ls.get ⟨r, hr⟩))
    ∧ (∀ (v : Grid) (rls cls : List String) (r : Nat) (hr : r < rls.length),
       cellAt (Main.generateEmptyData v (.labels rls) (.labels cls)) (r + 1) 0
         = some (rls.get ⟨r, hr⟩))
    ∧ (∀ (v : Grid) (n : Nat) (ls : List String) (c : Nat) (hc : c < ls.length),
       0 < Main.rowCountOf v (.count n) (.labels ls) →
       cellAt (Main.generateEmptyData v (.count n) (.labels ls)) 0 c
         = some (ls.get ⟨c, hc⟩))
    ∧ (∀ (v : Grid) (rls cls : List String) (c : Nat) (hc : c < cls.length),
       cellAt (Main.generateEmptyData v (.labels rls) (.labels cls)) 0 (c + 1)
         = some (cls.get ⟨c, hc⟩))
    ∧ (∀ (v : Grid) (rows cols : Dim) (r c : Nat),
       r < Main.rowCountOf v rows cols → c < Main.colCountOf v rows cols →
       ¬(rows.isLabels = true ∧ c = 0) → ¬(cols.isLabels = true ∧ r = 0) →
       (v.get? r).bind (fun row => row.get? c) = none →
       cellAt (Main.generateEmptyData v rows cols) r c = some ("")) := by
  refine ⟨?_, ?_, ?_, ?_, ?_, ?_, ?_, ?_, ?_, ?_, ?_⟩
  · intro v rows cols
    simp [Main.generateEmptyData, List.length_map, List.length_range]
  · intro v rows cols row hrow
    rcases List.mem_map.mp hrow with ⟨r, _, heq⟩
    subst heq
    simp [List.length_map, List.length_range]
  · intro v n cols
    rfl
  · intro v rows n _
    rfl
  · intro v ls cols
    rfl
  · intro v rows ls
    rfl
  · intro v ls n r hr hc0
    rw [gen_cellAt]
    rw [if_pos ⟨show r < ls.length from hr, hc0⟩]
    show some (idxD ls (r : Int)) = some (ls.get ⟨r, hr⟩)
    rw [idxD_nat ls r hr]
  · intro v rls cls r hr
    rw [gen_cellAt]
    have h1 : r + 1 < Main.rowCountOf v (.labels rls) (.labels cls) := by
      show r + 1 < rls.length + 1
      omega
    have h2 : (0 : Nat) < Main.colCountOf v (.labels rls) (.labels cls) := by
      show 0 < cls.length + 1
      omega
    rw [if_pos ⟨h1, h2⟩]
    show some (idxD rls (((r + 1 : Nat) : Int) - 1)) = some (rls.get ⟨r, hr⟩)
    have hcast : ((r + 1 : Nat) : Int) - 1 = (r : Int) := by push_cast; ring
    rw [hcast, idxD_nat rls r hr]
  · intro v n ls c hc hr0
    rw [gen_cellAt]
    rw [if_pos ⟨hr0, show c < ls.length from hc⟩]
    show some (idxD ls (c : Int)) = some (ls.get ⟨c, hc⟩)
    rw [idxD_nat ls c hc]
  · intro v rls cls c hc
    rw [gen_cellAt]
    have h1 : (0 : Nat) < Main.rowCountOf v (.labels rls) (.labels cls) := by
      show 0 < rls.length + 1
      omega
    have h2 : c + 1 < Main.colCountOf v (.labels rls) (.labels cls) := by
      show c + 1 < cls.length + 1
      omega
    rw [if_pos ⟨h1, h2⟩]
    show some (if c + 1 = 0 then idxD rls ((0 : Int) - 1)
      else if (0 : Nat) = 0 then idxD cls (((c + 1 : Nat) : Int) - 1)
      else valAt v 0 (c + 1)) = some (cls.get ⟨c, hc⟩)
    rw [if_neg (by omega), if_pos rfl]
    have hcast : ((c + 1 : Nat) : Int) - 1 = (c : Int) := by push_cast; ring
    rw [hcast, idxD_nat cls c hc]
  · intro v rows cols r c hrc hcc hnr hnc habsent
    rw [gen_cellAt, if_pos ⟨hrc, hcc⟩]
    cases rows with
    | labels rls =>
      cases cols with
      | labels cls =>
        show some (if c = 0 then idxD rls ((r : Int) - 1)
          else if r = 0 then idxD cls ((c : Int) - 1) else valAt v r c) = some ("")
        rw [if_neg (fun h => hnr ⟨rfl, h⟩), if_neg (fun h => hnc ⟨rfl, h⟩)]
        simp only [valAt, habsent]
        rfl
      | count m =>
        show some (if c = 0 then idxD rls (r : Int) else valAt v r c) = some ("")
        rw [if_neg (fun h => hnr ⟨rfl, h⟩)]
        simp only [valAt, habsent]
        rfl
    | count m =>
      cases cols with
      | labels cls =>
        show some (if r = 0 then idxD cls (c : Int) else valAt v r c) = some ("")
        rw [if_neg (fun h => hnc ⟨rfl, h⟩)]
        simp only [valAt, habsent]
        rfl
      | count m2 =>
        show some (valAt v r c) = some ("")
        simp only [valAt, habsent]
        rfl

/-- C7 witness: header cell (0,0) of the grid built from row labels
["a","b"] and three columns carries "a". -/
theorem c7_witness :
    cellAt (Main.generateEmptyData [] (.labels ["a", "b"]) (.count 3)) 0 0
      = some ((["a", "b"] : List String).get ⟨0, by decide⟩) :=
  c7_construction_sizing.2.2.2.2.2.2.1 [] ["a", "b"] 3 0 (by decide) (by decide)

/-- C8: in a cell whose committed value is empty, typing "x" seeds an edit
whose draft is "x" with no onChange, and then Escape leaves edit mode,
reverts the draft to the committed empty value and commits nothing, while
Enter (without Shift) instead commits "x"; in general, while editing, Enter
without Shift, Tab and blur all commit the current draft through onChange,
and Escape always reverts the draft to the last committed value without
committing. -/
theorem c8_commit_discard :
    (CellE.handleKeyDown false ("") 1000
        { isEditing := false, editValue := "", lastEnterPress := 0 }
        { key := "x", shiftKey := false, ctrlKey := false, metaKey := false,
          altKey := false })
      = ({ isEditing := true, editValue := "x", lastEnterPress := 0 }, none)
    ∧ (CellE.handleKeyDown false ("") 1100
        { isEditing := true, editValue := "x", lastEnterPress := 0 }
        { key := "Escape", shiftKey := false, ctrlKey := false, metaKey := false,
          altKey := false })
      = ({ isEditing := false, editValue := "", lastEnterPress := 0 }, none)
    ∧ (CellE.handleKeyDown false ("") 1100
        { isEditing := true, editValue := "x", lastEnterPress := 0 }
        { key := "Enter", shiftKey := false, ctrlKey := false, metaKey := false,
          altKey := false })
      = ({ isEditing := false, editValue := "x", lastEnterPress := 0 }, some ("x"))
    ∧ (∀ (value : String) (now : Nat) (st : CellE.CellState) (e : CellE.KeyEvt),
       st.isEditing = true → e.key = "Enter" → e.shiftKey = false →
       CellE.handleKeyDown false value now st e
         = ({ st with isEditing := false }, some st.editValue))
    ∧ (∀ (value : String) (now : Nat) (st : CellE.CellState) (e : CellE.KeyEvt),
       st.isEditing = true → e.key = "Tab" →
       CellE.handleKeyDown false value now st e
         = ({ st with isEditing := false }, some st.editValue))
    ∧ (∀ (value : String) (now : Nat) (st : CellE.CellState) (e : CellE.KeyEvt),
       st.isEditing = true → e.key = "Escape" →
       CellE.handleKeyDown false value now st e
         = ({ st with isEditing := false, editValue := value }, none))
    ∧ (∀ (st : CellE.CellState), st.isEditing = true →
       CellE.handleBlur st = ({ st with isEditing := false }, some st.editValue)) := by
  refine ⟨by decide, by decide, by decide, ?_, ?_, ?_, ?_⟩
  · intro value now st e hed hk hs
    simp [CellE.handleKeyDown, hed, hk, hs]
  · intro value now st e hed hk
    simp [CellE.handleKeyDown, hed, hk]
  · intro value now st e hed hk
    simp [CellE.handleKeyDown, hed, hk]
  · intro st hed
    simp [CellE.handleBlur, hed]

/-- C8 witness: the general editing-commit clause at a concrete state. -/
theorem c8_witness :
    CellE.handleKeyDown false ("v0") 5
        { isEditing := true, editValue := "draft", lastEnterPress := 0 }
        { key := "Tab", shiftKey := true, ctrlKey := false, metaKey := false,
          altKey := false }
      = ({ isEditing := false, editValue := "draft", lastEnterPress := 0 },
         some ("draft")) :=
  c8_commit_discard.2.2.2.2.1 ("v0") 5
    { isEditing := true, editValue := "draft", lastEnterPress := 0 }
    { key := "Tab", shiftKey := true, ctrlKey := false, metaKey := false,
      altKey := false } rfl rfl
